import Mathlib

/-!
Verification of the OAuth token lifecycle and rate-limit tracker of the
ynab.go client library.  The Go source is shallowly embedded: times are
modelled as `Int` seconds (the Go code works with `time.Time` values and
`time.Duration`s; only orderings and differences matter here, so seconds
suffice and the 5-minute buffer becomes `300`), byte payloads as lists of
`Nat`, and fallible operations as `Except`.  Stateful methods become pure
functions that take the relevant state (and the current time `now`)
explicitly and return the updated state.
-/

namespace Ynab

/-- OAuth token, from `oauth/types.go`.  `expiresAt = none` models the Go
zero `time.Time` (the `IsZero` check in `IsExpired`). -/
structure Token where
  accessToken : String
  refreshToken : String
  tokenType : String
  expiresIn : Int
  scope : String
  expiresAt : Option Int
  createdAt : Option Int
deriving DecidableEq, Repr

/-- Model of `Token.IsExpired` from `oauth/types.go`: a zero expiry time is never
expired; otherwise the token counts as expired once `now + 5min` is
strictly after `expiresAt` (the Go code `time.Now().Add(buffer).After(t.ExpiresAt)`).
Five minutes is 300 seconds. -/
def Token.isExpired (now : Int) (t : Token) : Bool :=
  match t.expiresAt with
  | none => false
  | some e => decide (now + 300 > e)

/-- Model of `Token.IsValid` from `oauth/types.go`. -/
def Token.isValid (now : Int) (t : Token) : Bool :=
  t.accessToken != "" && !(t.isExpired now)

/-- Model of `Token.CanRefresh` from `oauth/types.go`. -/
def Token.canRefresh (t : Token) : Bool :=
  t.refreshToken != ""

/-- Model of `Token.SetExpiration` from `oauth/types.go`: sets `ExpiresIn`,
`ExpiresAt = now + expiresIn` and `CreatedAt = now`. -/
def Token.setExpiration (now : Int) (expiresIn : Int) (t : Token) : Token :=
  { t with expiresIn := expiresIn, expiresAt := some (now + expiresIn), createdAt := some now }

/-- C3 (counterexample): the claim asserts `IsExpired` is true exactly when
`now + 5min >= expires_at`, inclusively at the boundary.  At the concrete
boundary input (`now = 0`, `expiresAt = 300`) the claimed condition
`now + 300 >= expiresAt` holds, yet the code returns `false`: the `After` comparison in Go is strict. -/
theorem isExpired_inclusive_boundary_counterexample :
    ((0 : Int) + 300 ≥ 300) ∧
    Token.isExpired 0
      { accessToken := "tok", refreshToken := "", tokenType := "Bearer",
        expiresIn := 300, scope := "", expiresAt := some 300, createdAt := some 0 } = false := by
  constructor
  · decide
  · rfl

/-- C3 (amended): for a token with non-zero `expires_at`, `IsExpired` is
true exactly when `now + 5 minutes > expires_at`, strictly: a token whose
`expires_at` is exactly 5 minutes from now is NOT reported expired; a token
with a zero `expires_at` is never reported expired. -/
theorem isExpired_strict_buffer (now e : Int) (t : Token) :
    (t.expiresAt = some e → (Token.isExpired now t = true ↔ now + 300 > e)) ∧
    (t.expiresAt = some (now + 300) → Token.isExpired now t = false) ∧
    (t.expiresAt = none → Token.isExpired now t = false) := by
  refine ⟨?_, ?_, ?_⟩
  · intro h
    simp [Token.isExpired, h]
  · intro h
    simp [Token.isExpired, h]
  · intro h
    simp [Token.isExpired, h]

/-- Witness for `isExpired_strict_buffer` at a concrete token. -/
theorem isExpired_strict_buffer_witness :
    (Token.isExpired 0
      { accessToken := "tok", refreshToken := "", tokenType := "Bearer",
        expiresIn := 100, scope := "", expiresAt := some 100, createdAt := some 0 } = true
      ↔ (0 : Int) + 300 > 100) :=
  (isExpired_strict_buffer 0 100
    { accessToken := "tok", refreshToken := "", tokenType := "Bearer",
      expiresIn := 100, scope := "", expiresAt := some 100, createdAt := some 0 }).1 rfl

/-- XOR byte encryption from `EncryptedFileStorage.encrypt`: each byte is
XORed with `key[i % len(key)]`, indexing from `i`.  Bytes are `Nat`s. -/
def EncryptedFileStorage.encryptFrom (key : List Nat) (i : Nat) : List Nat → List Nat
  | [] => []
  | b :: rest => (b ^^^ key.getD (i % key.length) 0) :: EncryptedFileStorage.encryptFrom key (i + 1) rest

/-- Model of `EncryptedFileStorage.encrypt`: an empty key leaves the data
unchanged; otherwise every byte is XORed against the cycled key. -/
def EncryptedFileStorage.encrypt (key : List Nat) (data : List Nat) : List Nat :=
  if key.length = 0 then data else EncryptedFileStorage.encryptFrom key 0 data

/-- Model of `EncryptedFileStorage.decrypt`: it is `encrypt` again (XOR is symmetric). -/
def EncryptedFileStorage.decrypt (key : List Nat) (data : List Nat) : List Nat :=
  EncryptedFileStorage.encrypt key data

theorem encryptFrom_involutive (key : List Nat) (data : List Nat) :
    ∀ i, EncryptedFileStorage.encryptFrom key i (EncryptedFileStorage.encryptFrom key i data) = data := by
  induction data with
  | nil => intro i; rfl
  | cons b rest ih =>
      intro i
      simp only [EncryptedFileStorage.encryptFrom, ih]
      rw [Nat.xor_assoc, Nat.xor_self, Nat.xor_zero]

/-- C7: decrypting the encryption of any payload with the same non-empty
key yields the payload back, and with an empty key `encrypt` is the
identity function. -/
theorem encrypt_decrypt_roundtrip (key payload : List Nat) (hk : key ≠ []) :
    EncryptedFileStorage.decrypt key (EncryptedFileStorage.encrypt key payload) = payload ∧
    EncryptedFileStorage.encrypt [] payload = payload := by
  constructor
  · have hlen : key.length ≠ 0 := by
      intro h
      exact hk (List.length_eq_zero.mp h)
    simp only [EncryptedFileStorage.decrypt, EncryptedFileStorage.encrypt, if_neg hlen]
    exact encryptFrom_involutive key payload 0
  · rfl

/-- Witness for `encrypt_decrypt_roundtrip` at a concrete key and payload. -/
theorem encrypt_decrypt_roundtrip_witness :
    EncryptedFileStorage.decrypt [1, 2] (EncryptedFileStorage.encrypt [1, 2] [5, 6, 7]) = [5, 6, 7] ∧
    EncryptedFileStorage.encrypt [] [5, 6, 7] = [5, 6, 7] :=
  encrypt_decrypt_roundtrip [1, 2] [5, 6, 7] (by decide)

/-- Rate-limit tracker state from `api/ratelimit.go`.  Timestamps are
`Int` seconds; `requests` is kept in arrival order. -/
structure RateLimitTracker where
  requests : List Int
  limit : Int
  window : Int
deriving DecidableEq, Repr

/-- Model of `RateLimitTracker.cleanup` from `api/ratelimit.go`: scan from the
front for the first request strictly after the cutoff (`reqTime.After(cutoff)`)
and keep the sequence from there on; drop everything if no request
qualifies. -/
def cleanup (cutoff : Int) : List Int → List Int
  | [] => []
  | t :: rest => if cutoff < t then t :: rest else cleanup cutoff rest

/-- Model of `RateLimitTracker.needsCleanup`: the head request is at or before the
cutoff (`Before(cutoff) || Equal(cutoff)`); false on an empty sequence. -/
def needsCleanup (cutoff : Int) : List Int → Bool
  | [] => false
  | t :: _ => decide (t ≤ cutoff)

/-- Model of `RateLimitTracker.RecordRequest`: append `now`, then clean up with
cutoff `now - window`. -/
def RateLimitTracker.recordRequest (now : Int) (r : RateLimitTracker) : RateLimitTracker :=
  { r with requests := cleanup (now - r.window) (r.requests ++ [now]) }

/-- Model of `RateLimitTracker.TimeUntilReset`: clean up first when needed; zero on
an empty sequence; otherwise the time until the oldest request is one
window old (never negative). -/
def RateLimitTracker.timeUntilReset (now : Int) (r : RateLimitTracker) : Int :=
  let reqs :=
    if needsCleanup (now - r.window) r.requests then cleanup (now - r.window) r.requests
    else r.requests
  match reqs with
  | [] => 0
  | oldest :: _ =>
    let resetTime := oldest + r.window
    if resetTime < now then 0 else resetTime - now

theorem cleanup_suffix (c : Int) (l : List Int) : List.IsSuffix (cleanup c l) l := by
  induction l with
  | nil => exact List.suffix_refl []
  | cons t rest ih =>
      by_cases h : c < t
      · simp [cleanup, h]
      · simp only [cleanup, if_neg h]
        exact ih.trans (List.suffix_cons t rest)

theorem cleanup_eq_filter (c : Int) (l : List Int) (hs : List.Sorted (· ≤ ·) l) :
    cleanup c l = l.filter (fun t => decide (c < t)) := by
  induction l with
  | nil => rfl
  | cons t rest ih =>
      rw [List.sorted_cons] at hs
      by_cases h : c < t
      · have hrest : rest.filter (fun t => decide (c < t)) = rest := by
          rw [List.filter_eq_self]
          intro a ha
          exact decide_eq_true (lt_of_lt_of_le h (hs.1 a ha))
        simp [cleanup, h, hrest]
      · simp [cleanup, h, ih hs.2]

theorem mem_cleanup_gt (c : Int) (l : List Int) (hs : List.Sorted (· ≤ ·) l) :
    ∀ t ∈ cleanup c l, c < t := by
  intro t ht
  rw [cleanup_eq_filter c l hs, List.mem_filter] at ht
  exact of_decide_eq_true ht.2

theorem sorted_append_one (l : List Int) (a : Int) (hs : List.Sorted (· ≤ ·) l)
    (hub : ∀ t ∈ l, t ≤ a) : List.Sorted (· ≤ ·) (l ++ [a]) := by
  induction l with
  | nil => exact List.sorted_singleton a
  | cons t rest ih =>
      rw [List.sorted_cons] at hs
      rw [List.cons_append, List.sorted_cons]
      refine ⟨?_, ih hs.2 (fun x hx => hub x (List.mem_cons_of_mem t hx))⟩
      intro b hb
      rw [List.mem_append, List.mem_singleton] at hb
      cases hb with
      | inl h => exact hs.1 b h
      | inr h => exact h ▸ hub t (List.mem_cons_self t rest)

/-- C4: for an arrival-ordered request sequence whose entries are all at or
before `now`, eviction with cutoff `now - window` removes exactly the
prefix of entries at or older than `now - window` (it never removes a later
entry while keeping an earlier one — the survivors form a suffix), and
after the eviction run of any read, or after `RecordRequest`, every
remaining timestamp lies within `[now - window, now]`. -/
theorem rateLimitTracker_eviction_invariant (reqs : List Int) (lim now window : Int)
    (hs : List.Sorted (· ≤ ·) reqs) (hub : ∀ t ∈ reqs, t ≤ now) :
    cleanup (now - window) reqs = reqs.filter (fun t => decide (now - window < t)) ∧
    List.IsSuffix (cleanup (now - window) reqs) reqs ∧
    (∀ t ∈ cleanup (now - window) reqs, now - window ≤ t ∧ t ≤ now) ∧
    (∀ t ∈ (RateLimitTracker.recordRequest now ⟨reqs, lim, window⟩).requests,
      now - window ≤ t ∧ t ≤ now) := by
  refine ⟨cleanup_eq_filter _ _ hs, cleanup_suffix _ _, ?_, ?_⟩
  · intro t ht
    have h1 := mem_cleanup_gt _ _ hs t ht
    have h2 : t ∈ reqs := (cleanup_suffix (now - window) reqs).subset ht
    exact ⟨le_of_lt h1, hub t h2⟩
  · intro t ht
    simp only [RateLimitTracker.recordRequest] at ht
    have hs' : List.Sorted (· ≤ ·) (reqs ++ [now]) := sorted_append_one reqs now hs hub
    have h1 := mem_cleanup_gt _ _ hs' t ht
    have h2 : t ∈ reqs ++ [now] := (cleanup_suffix (now - window) (reqs ++ [now])).subset ht
    rw [List.mem_append, List.mem_singleton] at h2
    refine ⟨le_of_lt h1, ?_⟩
    cases h2 with
    | inl h => exact hub t h
    | inr h => exact le_of_eq h

/-- Witness for `rateLimitTracker_eviction_invariant` at a concrete state. -/
theorem rateLimitTracker_eviction_invariant_witness :
    cleanup ((10 : Int) - 4) [3, 7, 9] = List.filter (fun t => decide ((10 : Int) - 4 < t)) [3, 7, 9] ∧
    List.IsSuffix (cleanup ((10 : Int) - 4) [3, 7, 9]) [3, 7, 9] ∧
    (∀ t ∈ cleanup ((10 : Int) - 4) [3, 7, 9], (10 : Int) - 4 ≤ t ∧ t ≤ 10) ∧
    (∀ t ∈ (RateLimitTracker.recordRequest 10 ⟨[3, 7, 9], 200, 4⟩).requests,
      (10 : Int) - 4 ≤ t ∧ t ≤ 10) :=
  rateLimitTracker_eviction_invariant [3, 7, 9] 200 10 4
    (by decide) (by decide)

theorem timeUntilReset_eq (lim now window : Int) (reqs : List Int)
    (hs : List.Sorted (· ≤ ·) reqs) :
    RateLimitTracker.timeUntilReset now ⟨reqs, lim, window⟩ =
      (match cleanup (now - window) reqs with
       | [] => 0
       | oldest :: _ => max 0 (oldest + window - now)) := by
  cases reqs with
  | nil => rfl
  | cons t rest =>
      by_cases ht : t ≤ now - window
      · have hneed : needsCleanup (now - window) (t :: rest) = true := by
          simp [needsCleanup, ht]
        simp only [RateLimitTracker.timeUntilReset, hneed, if_true]
        cases hcl : cleanup (now - window) (t :: rest) with
        | nil => simp
        | cons oldest rest2 =>
            have ho : now - window < oldest :=
              mem_cleanup_gt (now - window) (t :: rest) hs oldest
                (hcl ▸ List.mem_cons_self oldest rest2)
            have h1 : ¬ (oldest + window < now) := by omega
            have h2 : max 0 (oldest + window - now) = oldest + window - now := by omega
            simp [h1, h2]
      · have hneed : needsCleanup (now - window) (t :: rest) = false := by
          simp only [needsCleanup, decide_eq_false_iff_not]
          omega
        have hcl : cleanup (now - window) (t :: rest) = t :: rest := by
          simp [cleanup, (by omega : now - window < t)]
        have h1 : ¬ (t + window < now) := by omega
        have h2 : max 0 (t + window - now) = t + window - now := by omega
        simp [RateLimitTracker.timeUntilReset, hneed, hcl, h1, h2]

/-- C8: `TimeUntilReset` returns zero on an empty request sequence, and
otherwise (for an arrival-ordered sequence) equals
`max 0 (oldest + window - now)` where `oldest` heads the sequence the
tracker maintains after its lazy eviction; immediately after a single
`RecordRequest` it returns exactly `window`, hence a strictly positive
duration bounded above by the window. -/
theorem timeUntilReset_formula (reqs : List Int) (lim now window : Int)
    (hs : List.Sorted (· ≤ ·) reqs) (hw : 0 < window) :
    RateLimitTracker.timeUntilReset now ⟨[], lim, window⟩ = 0 ∧
    RateLimitTracker.timeUntilReset now ⟨reqs, lim, window⟩ =
      (match cleanup (now - window) reqs with
       | [] => 0
       | oldest :: _ => max 0 (oldest + window - now)) ∧
    (0 < RateLimitTracker.timeUntilReset now (RateLimitTracker.recordRequest now ⟨[], lim, window⟩) ∧
     RateLimitTracker.timeUntilReset now (RateLimitTracker.recordRequest now ⟨[], lim, window⟩) ≤ window) := by
  refine ⟨rfl, timeUntilReset_eq lim now window reqs hs, ?_⟩
  have hrec : RateLimitTracker.recordRequest now ⟨[], lim, window⟩ =
      (⟨[now], lim, window⟩ : RateLimitTracker) := by
    simp [RateLimitTracker.recordRequest, cleanup, (by omega : now - window < now)]
  have hneed : needsCleanup (now - window) [now] = false := by
    simp only [needsCleanup, decide_eq_false_iff_not]
    omega
  have hval : RateLimitTracker.timeUntilReset now
      (RateLimitTracker.recordRequest now ⟨[], lim, window⟩) = window := by
    rw [hrec]
    simp [RateLimitTracker.timeUntilReset, hneed]
    omega
  rw [hval]
  exact ⟨hw, le_refl window⟩

/-- Witness for `timeUntilReset_formula` at a concrete state. -/
theorem timeUntilReset_formula_witness :
    RateLimitTracker.timeUntilReset 10 ⟨[], 200, 4⟩ = 0 ∧
    RateLimitTracker.timeUntilReset 10 ⟨[3, 7, 9], 200, 4⟩ =
      (match cleanup ((10 : Int) - 4) [3, 7, 9] with
       | [] => 0
       | oldest :: _ => max 0 (oldest + 4 - 10)) ∧
    (0 < RateLimitTracker.timeUntilReset 10 (RateLimitTracker.recordRequest 10 ⟨[], 200, 4⟩) ∧
     RateLimitTracker.timeUntilReset 10 (RateLimitTracker.recordRequest 10 ⟨[], 200, 4⟩) ≤ 4) :=
  timeUntilReset_formula [3, 7, 9] 200 10 4 (by decide) (by decide)

/-- OAuth error response body, from `oauth/types.go`. -/
structure ErrorResponse where
  errorCode : String
  errorDescription : String
  errorURI : String
deriving DecidableEq, Repr

/-- Token-endpoint response JSON, from `oauth/types.go`. -/
structure TokenResponse where
  accessToken : String
  refreshToken : String
  tokenType : String
  expiresIn : Int
  scope : String
  error : String
  errorDescription : String
deriving DecidableEq, Repr

/-- Error outcome of a token-endpoint exchange: either the structured
OAuth error built from the response body, or a plain message
(`fmt.Errorf` in the source). -/
inductive ExchangeError where
  | oauth (e : ErrorResponse)
  | plain (msg : String)
deriving DecidableEq, Repr

/-- Model of `TokenResponse.ToToken` from `oauth/types.go`: copy the fields and set
the expiration only when `expires_in > 0`. -/
def TokenResponse.toToken (now : Int) (tr : TokenResponse) : Token :=
  let token : Token :=
    { accessToken := tr.accessToken, refreshToken := tr.refreshToken,
      tokenType := tr.tokenType, expiresIn := 0, scope := tr.scope,
      expiresAt := none, createdAt := none }
  if 0 < tr.expiresIn then token.setExpiration now tr.expiresIn else token

/-- Model of `TokenManager.exchangeToken` from `oauth/token.go`, from the point
where the response body has been parsed into a `TokenResponse`: a
non-empty `error` field becomes a structured `ErrorResponse`; an empty
`access_token` is a hard failure; a token whose `ExpiresIn` is still zero
gets the 7200-second default expiration. -/
def TokenManager.exchangeToken (now : Int) (tr : TokenResponse) : Except ExchangeError Token :=
  if tr.error != "" then
    Except.error (ExchangeError.oauth
      { errorCode := tr.error, errorDescription := tr.errorDescription, errorURI := "" })
  else if tr.accessToken == "" then
    Except.error (ExchangeError.plain ("no access token in response"))
  else
    let token := tr.toToken now
    Except.ok (if token.expiresIn = 0 then token.setExpiration now 7200 else token)

/-- C5: for every token-endpoint exchange, a body with a non-empty `error`
field yields the structured OAuth error with that code and description
(not a plain error); an empty `access_token` yields a failure; and a
successful response with `expires_in = 0` produces a token expiring 7200
seconds after its creation time. -/
theorem exchangeToken_errors_and_default_expiry (now : Int) (tr : TokenResponse) :
    (tr.error ≠ "" → TokenManager.exchangeToken now tr =
      Except.error (ExchangeError.oauth
        { errorCode := tr.error, errorDescription := tr.errorDescription, errorURI := "" })) ∧
    (tr.error = "" → tr.accessToken = "" → TokenManager.exchangeToken now tr =
      Except.error (ExchangeError.plain ("no access token in response"))) ∧
    (tr.error = "" → tr.accessToken ≠ "" → tr.expiresIn = 0 →
      ∃ t, TokenManager.exchangeToken now tr = Except.ok t ∧
        t.expiresIn = 7200 ∧ t.createdAt = some now ∧ t.expiresAt = some (now + 7200)) := by
  refine ⟨?_, ?_, ?_⟩
  · intro h
    simp [TokenManager.exchangeToken, h]
  · intro h1 h2
    simp [TokenManager.exchangeToken, h1, h2]
  · intro h1 h2 h3
    refine ⟨(tr.toToken now).setExpiration now 7200, ?_, by simp [Token.setExpiration],
      by simp [Token.setExpiration], by simp [Token.setExpiration]⟩
    have htok : (tr.toToken now).expiresIn = 0 := by
      simp [TokenResponse.toToken, h3]
    simp [TokenManager.exchangeToken, h1, h2, htok]

/-- Witness for `exchangeToken_errors_and_default_expiry` at a concrete
response omitting `expires_in`. -/
theorem exchangeToken_errors_and_default_expiry_witness :
    ∃ t, TokenManager.exchangeToken 50
        { accessToken := "X", refreshToken := "", tokenType := "Bearer",
          expiresIn := 0, scope := "", error := "", errorDescription := "" } = Except.ok t ∧
      t.expiresIn = 7200 ∧ t.createdAt = some 50 ∧ t.expiresAt = some ((50 : Int) + 7200) :=
  (exchangeToken_errors_and_default_expiry 50
    { accessToken := "X", refreshToken := "", tokenType := "Bearer",
      expiresIn := 0, scope := "", error := "", errorDescription := "" }).2.2
    rfl (by decide) rfl

/-- One member storage of a `ChainedStorage`, abstracted to its observable
behaviour: it holds an optional token (`MemoryStorage`-style state) and
each operation can be made to fail with an injected error, so the chained
first-error and fallback logic is exercised. -/
structure MemberStorage where
  tok : Option Token
  saveFails : Option String
  loadFails : Option String
  clearFails : Option String
deriving DecidableEq, Repr

/-- The member operation `SaveToken`: store the token unless the member fails. -/
def memberSave (t : Token) (m : MemberStorage) : MemberStorage × Option String :=
  match m.saveFails with
  | some e => (m, some e)
  | none => ({ m with tok := some t }, none)

/-- The member operation `HasToken`. -/
def memberHasToken (m : MemberStorage) : Bool :=
  m.tok.isSome

/-- The member operation `LoadToken`: fails when the member fails or holds nothing. -/
def memberLoad (m : MemberStorage) : Except String Token :=
  match m.loadFails with
  | some e => Except.error e
  | none =>
    match m.tok with
    | none => Except.error ("no token stored")
    | some t => Except.ok t

/-- The member operation `ClearToken`: drop the token unless the member fails. -/
def memberClear (m : MemberStorage) : MemberStorage × Option String :=
  match m.clearFails with
  | some e => (m, some e)
  | none => ({ m with tok := none }, none)

/-- Model of `ChainedStorage.SaveToken`: save to every member in order, remembering
the first error. -/
def chainSave (t : Token) : List MemberStorage → List MemberStorage × Option String
  | [] => ([], none)
  | m :: rest =>
    let first := memberSave t m
    let others := chainSave t rest
    (first.1 :: others.1,
      match first.2 with
      | some e => some e
      | none => others.2)

/-- Model of `ChainedStorage.LoadToken`: return the first successful load among
members that report a token; skip members whose load fails. -/
def chainLoad : List MemberStorage → Except String Token
  | [] => Except.error ("no token found in any storage")
  | m :: rest =>
    if memberHasToken m then
      match memberLoad m with
      | Except.ok t => Except.ok t
      | Except.error _ => chainLoad rest
    else chainLoad rest

/-- Model of `ChainedStorage.ClearToken`: clear every member in order, remembering
the first error. -/
def chainClear : List MemberStorage → List MemberStorage × Option String
  | [] => ([], none)
  | m :: rest =>
    let first := memberClear m
    let others := chainClear rest
    (first.1 :: others.1,
      match first.2 with
      | some e => some e
      | none => others.2)

/-- Model of `ChainedStorage.HasToken`: true when any member has a token. -/
def chainHasToken : List MemberStorage → Bool
  | [] => false
  | m :: rest => memberHasToken m || chainHasToken rest

/-- C6: `SaveToken` attempts the save on every member in order and returns
the first error (none when all succeed); `LoadToken` returns the first
successful load among the members; `HasToken` is true exactly when at least one
member reports a token (so it survives clearing earlier members as long
as one still holds the token); `ClearToken` clears every member and
returns the first error. -/
theorem chainedStorage_operations (t : Token) (l : List MemberStorage) :
    (chainSave t l).2 = l.findSome? (fun m => m.saveFails) ∧
    (chainSave t l).1 = l.map (fun m => (memberSave t m).1) ∧
    chainLoad l =
      (match l.findSome? (fun m =>
          match memberLoad m with
          | Except.ok tk => some tk
          | Except.error _ => none) with
       | some tk => Except.ok tk
       | none => Except.error ("no token found in any storage")) ∧
    chainHasToken l = l.any memberHasToken ∧
    (chainClear l).2 = l.findSome? (fun m => m.clearFails) ∧
    (chainClear l).1 = l.map (fun m => (memberClear m).1) := by
  induction l with
  | nil => exact ⟨rfl, rfl, rfl, rfl, rfl, rfl⟩
  | cons m rest ih =>
      obtain ⟨ih1, ih2, ih3, ih4, ih5, ih6⟩ := ih
      refine ⟨?_, ?_, ?_, ?_, ?_, ?_⟩
      · cases hsf : m.saveFails with
        | some e => simp [chainSave, memberSave, hsf, List.findSome?]
        | none => simp [chainSave, memberSave, hsf, List.findSome?, ih1]
      · cases hsf : m.saveFails with
        | some e => simp [chainSave, memberSave, hsf, ih2]
        | none => simp [chainSave, memberSave, hsf, ih2]
      · cases hlf : m.loadFails with
        | some e =>
            have hml : memberLoad m = Except.error e := by simp [memberLoad, hlf]
            cases htok : m.tok with
            | none => simp [chainLoad, memberHasToken, htok, hml, List.findSome?, ih3]
            | some tk => simp [chainLoad, memberHasToken, htok, hml, List.findSome?, ih3]
        | none =>
            cases htok : m.tok with
            | none =>
                have hml : memberLoad m = Except.error ("no token stored") := by
                  simp [memberLoad, hlf, htok]
                simp [chainLoad, memberHasToken, htok, hml, List.findSome?, ih3]
            | some tk =>
                have hml : memberLoad m = Except.ok tk := by simp [memberLoad, hlf, htok]
                simp [chainLoad, memberHasToken, htok, hml, List.findSome?]
      · simp [chainHasToken, ih4]
      · cases hcf : m.clearFails with
        | some e => simp [chainClear, memberClear, hcf, List.findSome?]
        | none => simp [chainClear, memberClear, hcf, List.findSome?, ih5]
      · cases hcf : m.clearFails with
        | some e => simp [chainClear, memberClear, hcf, ih6]
        | none => simp [chainClear, memberClear, hcf, ih6]

/-- A provider callback URL as parsed by `url.Parse` and `url.ParseQuery`:
its query parameters and its fragment parameters as key-value lists.
An empty fragment string parses to the empty list. -/
structure CallbackURL where
  query : List (String × String)
  fragment : List (String × String)
deriving DecidableEq, Repr

/-- Model of the `url.Values.Get` lookup: the first value for a key, or `""` when absent. -/
def getParam (ps : List (String × String)) (k : String) : String :=
  match ps.find? (fun p => p.1 == k) with
  | some p => p.2
  | none => ""

/-- Model of the `CallbackResult` struct from `config.go`: exactly one of the code shape, the
implicit-token shape or the error shape is populated per parse. -/
structure CallbackResult where
  code : String
  state : String
  accessToken : String
  tokenType : String
  expiresIn : Int
  scope : String
  error : Option ErrorResponse
deriving DecidableEq, Repr

/-- Model of `parseExpiresIn` from `config.go`: recognises only the literal strings
"7200" and "3600" and falls back to 7200 seconds for anything else; it
never returns an error. -/
def parseExpiresIn (expiresIn : String) : Except String Int :=
  if expiresIn == "7200" then Except.ok 7200
  else if expiresIn == "3600" then Except.ok 3600
  else Except.ok 7200

/-- Model of `Config.ParseCallbackURL` from `config.go`: an `error` query parameter
wins, then a `code` query parameter, then an `access_token` in the
fragment; otherwise the parse fails.  The fragment branch copies the
token fields, parses `expires_in` when non-empty, and lets a fragment
`state` override the query `state`. -/
def Config.parseCallbackURL (u : CallbackURL) : Except String CallbackResult :=
  let state := getParam u.query "state"
  let errorParam := getParam u.query "error"
  if errorParam != "" then
    Except.ok
      { code := "", state := state, accessToken := "", tokenType := "", expiresIn := 0,
        scope := "",
        error := some
          { errorCode := errorParam,
            errorDescription := getParam u.query "error_description",
            errorURI := getParam u.query "error_uri" } }
  else if getParam u.query "code" != "" then
    Except.ok
      { code := getParam u.query "code", state := state, accessToken := "", tokenType := "",
        expiresIn := 0, scope := "", error := none }
  else if u.fragment != [] then
    let accessToken := getParam u.fragment "access_token"
    if accessToken != "" then
      let expiresInStr := getParam u.fragment "expires_in"
      let expiresIn :=
        if expiresInStr != "" then
          match parseExpiresIn expiresInStr with
          | Except.ok seconds => seconds
          | Except.error _ => 0
        else 0
      let fragState := getParam u.fragment "state"
      Except.ok
        { code := "", state := if fragState != "" then fragState else state,
          accessToken := accessToken, tokenType := getParam u.fragment "token_type",
          expiresIn := expiresIn, scope := getParam u.fragment "scope", error := none }
    else Except.error ("no authorization code or access token found in callback URL")
  else Except.error ("no authorization code or access token found in callback URL")

/-- Model of `CallbackResult.ToToken` from `config.go`: nothing without an access
token; otherwise a token with no refresh token, expiring only when the
callback carried a positive `expires_in`. -/
def CallbackResult.toToken (now : Int) (cr : CallbackResult) : Option Token :=
  if cr.accessToken == "" then none
  else
    let token : Token :=
      { accessToken := cr.accessToken, refreshToken := "", tokenType := cr.tokenType,
        expiresIn := 0, scope := cr.scope, expiresAt := none, createdAt := none }
    some (if 0 < cr.expiresIn then token.setExpiration now cr.expiresIn else token)

/-- Model of `Config.ValidateState` from `config.go`. -/
def Config.validateState (expectedState actualState : String) : Bool :=
  expectedState != "" && expectedState == actualState

/-- Failure cases of `ImplicitGrantFlow.HandleCallback`. -/
inductive FlowError where
  | parseFailed (msg : String)
  | oauthError (e : ErrorResponse)
  | stateMismatch
  | noAccessToken
deriving DecidableEq, Repr

/-- Model of `ImplicitGrantFlow.HandleCallback` from `oauth/flow.go`: parse the
callback URL, surface a provider error, check the CSRF state when an
expected state is supplied, and build the token from the parse result —
no network exchange is involved (the function consumes nothing but the
callback URL). -/
def ImplicitGrantFlow.handleCallback (now : Int) (u : CallbackURL) (expectedState : String) :
    Except FlowError Token :=
  match Config.parseCallbackURL u with
  | Except.error e => Except.error (FlowError.parseFailed e)
  | Except.ok result =>
    match result.error with
    | some e => Except.error (FlowError.oauthError e)
    | none =>
      if expectedState != "" && !(Config.validateState expectedState result.state) then
        Except.error FlowError.stateMismatch
      else
        match result.toToken now with
        | none => Except.error FlowError.noAccessToken
        | some token => Except.ok token


theorem parseCallbackURL_accessToken (u : CallbackURL) (r : CallbackResult)
    (hp : Config.parseCallbackURL u = Except.ok r) (hat : r.accessToken ≠ "") :
    r.accessToken = getParam u.fragment "access_token" := by
  unfold Config.parseCallbackURL at hp
  dsimp only at hp
  split at hp
  · cases hp
    simp at hat
  · split at hp
    · cases hp
      simp at hat
    · split at hp
      · split at hp
        · cases hp
          rfl
        · simp at hp
      · simp at hp

theorem toToken_fields (now : Int) (cr : CallbackResult) (token : Token)
    (htok : cr.toToken now = some token) :
    token.accessToken = cr.accessToken ∧ token.refreshToken = "" := by
  unfold CallbackResult.toToken at htok
  split at htok
  · simp at htok
  · dsimp only at htok
    have h := Option.some.inj htok
    subst h
    constructor
    · split <;> simp [Token.setExpiration]
    · split <;> simp [Token.setExpiration]

/-- C9: the implicit-grant callback handler succeeds only when the fragment of the URL carries a non-empty `access_token` (a token in the query string
alone never succeeds); the returned token is assembled from the fragment
parameters and can never be refreshed.  The handler is a pure function of
the callback URL — it consumes no token-endpoint response, so no network
exchange is involved. -/
theorem implicit_handleCallback_fragment_only (now : Int) (u : CallbackURL)
    (expectedState : String) :
    (∀ t, ImplicitGrantFlow.handleCallback now u expectedState = Except.ok t →
      getParam u.fragment "access_token" ≠ "" ∧
      t.accessToken = getParam u.fragment "access_token" ∧
      t.canRefresh = false) ∧
    (getParam u.fragment "access_token" = "" →
      ∀ t, ImplicitGrantFlow.handleCallback now u expectedState ≠ Except.ok t) := by
  have main : ∀ t, ImplicitGrantFlow.handleCallback now u expectedState = Except.ok t →
      getParam u.fragment "access_token" ≠ "" ∧
      t.accessToken = getParam u.fragment "access_token" ∧
      t.canRefresh = false := by
    intro t hok
    unfold ImplicitGrantFlow.handleCallback at hok
    split at hok
    · simp at hok
    · rename_i result heq
      split at hok
      · simp at hok
      · rename_i herr
        split at hok
        · simp at hok
        · split at hok
          · simp at hok
          · rename_i token htok
            have ht : token = t := by simpa using hok
            subst ht
            obtain ⟨hacc, hrt⟩ := toToken_fields now result token htok
            have hat : result.accessToken ≠ "" := by
              intro hempty
              unfold CallbackResult.toToken at htok
              rw [if_pos (by simp [hempty])] at htok
              exact absurd htok (by simp)
            have hfrag := parseCallbackURL_accessToken u result heq hat
            refine ⟨hfrag ▸ hat, hacc.trans hfrag, ?_⟩
            simp [Token.canRefresh, hrt]
  refine ⟨main, ?_⟩
  intro hempty t hok
  exact ((main t hok).1) hempty

/-- Witness for `implicit_handleCallback_fragment_only` at a concrete
callback whose fragment carries `access_token=tok123`. -/
theorem implicit_handleCallback_fragment_only_witness :
    getParam [("access_token", "tok123"), ("state", "S")] "access_token" ≠ "" ∧
    Token.accessToken
      { accessToken := "tok123", refreshToken := "", tokenType := "", expiresIn := 0,
        scope := "", expiresAt := none, createdAt := none } =
      getParam [("access_token", "tok123"), ("state", "S")] "access_token" ∧
    Token.canRefresh
      { accessToken := "tok123", refreshToken := "", tokenType := "", expiresIn := 0,
        scope := "", expiresAt := none, createdAt := none } = false :=
  (implicit_handleCallback_fragment_only 0
      { query := [], fragment := [("access_token", "tok123"), ("state", "S")] } "S").1
    { accessToken := "tok123", refreshToken := "", tokenType := "", expiresIn := 0,
      scope := "", expiresAt := none, createdAt := none }
    rfl

/-- C10: `parseExpiresIn` never fails and collapses every input to one of
exactly two values — 3600 for the literal string "3600" and 7200 for
every other string (including "7200" and unparsable text); accordingly a
fragment with a non-empty `expires_in` always parses to one of those two
expirations in `ParseCallbackURL`. -/
theorem parseExpiresIn_two_values :
    (∀ s : String, parseExpiresIn s = Except.ok (if s = "3600" then 3600 else 7200)) ∧
    (∀ (u : CallbackURL) (r : CallbackResult),
      getParam u.query "error" = "" → getParam u.query "code" = "" →
      getParam u.fragment "access_token" ≠ "" → getParam u.fragment "expires_in" ≠ "" →
      Config.parseCallbackURL u = Except.ok r →
      r.expiresIn = (if getParam u.fragment "expires_in" = "3600" then 3600 else 7200)) := by
  have hpe : ∀ s : String, parseExpiresIn s = Except.ok (if s = "3600" then 3600 else 7200) := by
    intro s
    by_cases h72 : s = "7200"
    · simp [parseExpiresIn, h72]
    · by_cases h36 : s = "3600"
      · simp [parseExpiresIn, h36]
      · simp [parseExpiresIn, h72, h36]
  refine ⟨hpe, ?_⟩
  intro u r herr hcode hacc hexp hp
  unfold Config.parseCallbackURL at hp
  dsimp only at hp
  split at hp
  · rename_i h
    simp [herr] at h
  · split at hp
    · rename_i h
      simp [hcode] at h
    · split at hp
      · split at hp
        · cases hp
          dsimp only
          rw [if_pos (show (getParam u.fragment "expires_in" != "") = true by simpa using hexp)]
          rw [hpe (getParam u.fragment "expires_in")]
        · rename_i h
          simp [hacc] at h
      · simp at hp

/-- Witness for `parseExpiresIn_two_values` at a concrete callback with
`expires_in=9999`, which collapses to the 7200-second default. -/
theorem parseExpiresIn_two_values_witness :
    CallbackResult.expiresIn
      { code := "", state := "S", accessToken := "tok123", tokenType := "",
        expiresIn := 7200, scope := "", error := none } =
      (if getParam [("access_token", "tok123"), ("expires_in", "9999"), ("state", "S")]
          "expires_in" = "3600" then 3600 else 7200) :=
  parseExpiresIn_two_values.2
    { query := [],
      fragment := [("access_token", "tok123"), ("expires_in", "9999"), ("state", "S")] }
    { code := "", state := "S", accessToken := "tok123", tokenType := "",
      expiresIn := 7200, scope := "", error := none }
    rfl rfl (by decide) (by decide) rfl

/-- Token-manager state from `oauth/token.go`: the current token, whether
a storage and a refresh callback are configured.  The storage itself and
the network exchange are supplied to `getToken` as outcome oracles. -/
structure TMState where
  token : Option Token
  hasStorage : Bool
  hasCallback : Bool
deriving DecidableEq, Repr

/-- Outcome of one `TokenManager.GetToken` call: the returned value, the
state left behind, and whether the refresh callback fired. -/
structure GetTokenResult where
  result : Except String Token
  state : TMState
  callbackInvoked : Bool
deriving Repr

/-- Model of `TokenManager.GetToken` from `oauth/token.go`.  `loadResult` is what
`storage.LoadToken()` would return (consulted only when no token is in
memory and a storage is configured), `refreshResult` is the outcome of the
refresh exchange against the token endpoint, and `saveErr` the outcome of
`storage.SaveToken` inside `SetToken` (which installs the token in memory
before persisting). -/
def TokenManager.getToken (now : Int) (tm : TMState) (loadResult : Except String Token)
    (refreshResult : Except String Token) (saveErr : Option String) : GetTokenResult :=
  let loaded : Option Token × TMState :=
    match tm.token with
    | some t => (some t, tm)
    | none =>
      if tm.hasStorage then
        match loadResult with
        | Except.ok t => (some t, { tm with token := some t })
        | Except.error _ => (none, tm)
      else (none, tm)
  match loaded with
  | (none, tm1) =>
    { result := Except.error ("no token available"), state := tm1, callbackInvoked := false }
  | (some t, tm1) =>
    if t.isValid now then
      { result := Except.ok t, state := tm1, callbackInvoked := false }
    else if !(t.canRefresh) then
      { result := Except.error ("token expired"), state := tm1, callbackInvoked := false }
    else
      match refreshResult with
      | Except.error e =>
        { result := Except.error ("failed to refresh token: " ++ e), state := tm1,
          callbackInvoked := false }
      | Except.ok newTok =>
        let tm2 := { tm1 with token := some newTok }
        match (if tm2.hasStorage then saveErr else none) with
        | some e =>
          { result := Except.error ("failed to save refreshed token: " ++ e), state := tm2,
            callbackInvoked := false }
        | none =>
          { result := Except.ok newTok, state := tm2, callbackInvoked := tm2.hasCallback }

/-- C1: `GetToken` follows the specified algorithm: with no in-memory
token it tries the storage and swallows a load error, failing with the
"no token available" error when nothing was recovered; a loaded or held
token that is valid is returned unchanged; an invalid token that cannot
refresh fails with the token-expired error; otherwise a successful
refresh exchange installs and persists the new token, fires the callback
exactly when one is registered, and returns the new token. -/
theorem getToken_algorithm (now : Int) (tm : TMState)
    (loadResult refreshResult : Except String Token) (saveErr : Option String) :
    (tm.token = none → tm.hasStorage = false →
      TokenManager.getToken now tm loadResult refreshResult saveErr =
        { result := Except.error ("no token available"), state := tm, callbackInvoked := false }) ∧
    (∀ e, tm.token = none → tm.hasStorage = true → loadResult = Except.error e →
      TokenManager.getToken now tm loadResult refreshResult saveErr =
        { result := Except.error ("no token available"), state := tm, callbackInvoked := false }) ∧
    (∀ t, tm.token = none → tm.hasStorage = true → loadResult = Except.ok t →
      t.isValid now = true →
      TokenManager.getToken now tm loadResult refreshResult saveErr =
        { result := Except.ok t, state := { tm with token := some t }, callbackInvoked := false }) ∧
    (∀ t, tm.token = some t → t.isValid now = true →
      TokenManager.getToken now tm loadResult refreshResult saveErr =
        { result := Except.ok t, state := tm, callbackInvoked := false }) ∧
    (∀ t, tm.token = some t → t.isValid now = false → t.canRefresh = false →
      TokenManager.getToken now tm loadResult refreshResult saveErr =
        { result := Except.error ("token expired"), state := tm, callbackInvoked := false }) ∧
    (∀ t newTok, tm.token = some t → t.isValid now = false → t.canRefresh = true →
      refreshResult = Except.ok newTok → saveErr = none →
      TokenManager.getToken now tm loadResult refreshResult saveErr =
        { result := Except.ok newTok, state := { tm with token := some newTok },
          callbackInvoked := tm.hasCallback }) := by
  refine ⟨?_, ?_, ?_, ?_, ?_, ?_⟩
  · intro h1 h2
    simp [TokenManager.getToken, h1, h2]
  · intro e h1 h2 h3
    simp [TokenManager.getToken, h1, h2, h3]
  · intro t h1 h2 h3 h4
    simp [TokenManager.getToken, h1, h2, h3, h4]
  · intro t h1 h2
    simp [TokenManager.getToken, h1, h2]
  · intro t h1 h2 h3
    simp [TokenManager.getToken, h1, h2, h3]
  · intro t newTok h1 h2 h3 h4 h5
    cases hst : tm.hasStorage <;>
      simp [TokenManager.getToken, h1, h2, h3, h4, h5, hst]

/-- A concrete stale-but-refreshable token for the witnesses. -/
def staleToken : Token :=
  { accessToken := "old", refreshToken := "r", tokenType := "Bearer",
    expiresIn := 10, scope := "", expiresAt := some 10, createdAt := some 0 }

/-- A concrete freshly refreshed token for the witnesses. -/
def freshToken : Token :=
  { accessToken := "new", refreshToken := "r2", tokenType := "Bearer",
    expiresIn := 7200, scope := "", expiresAt := some 17200, createdAt := some 10000 }

/-- A concrete manager state holding `staleToken` for the witnesses. -/
def staleState : TMState :=
  { token := some staleToken, hasStorage := true, hasCallback := true }

/-- Witness for `getToken_algorithm`: an expired refreshable token is
replaced by the refreshed one and the callback fires. -/
theorem getToken_algorithm_witness :
    TokenManager.getToken 10000 staleState (Except.error ("unused"))
        (Except.ok freshToken) none =
      { result := Except.ok freshToken,
        state := { token := some freshToken, hasStorage := true, hasCallback := true },
        callbackInvoked := true } :=
  (getToken_algorithm 10000 staleState (Except.error ("unused"))
      (Except.ok freshToken) none).2.2.2.2.2 staleToken freshToken rfl rfl rfl rfl rfl

/-- An HTTP response, reduced to its status code. -/
structure HTTPResponse where
  status : Nat
deriving DecidableEq, Repr

/-- Outcome of one `AuthenticatedTransport.RoundTrip`: what the caller
observes, how many times the base transport ran, and how many refresh
attempts were made. -/
structure RoundTripResult where
  result : Except String HTTPResponse
  baseCalls : Nat
  refreshCalls : Nat
deriving Repr

/-- Model of `AuthenticatedTransport.RoundTrip` from `oauth/token.go`.  The oracles
are: `tok1` the initial `GetAccessToken` outcome, `firstResult` the base
answer of the base transport to the original request, `refreshOutcome` the
`RefreshToken` outcome, `tok2` the post-refresh `GetAccessToken` outcome,
and `retryResult` its answer to the retried request.
Only a 401 on a successful first response triggers the refresh-and-retry
path; every failure inside that path falls back to returning the original
401 response. -/
def AuthenticatedTransport.roundTrip (tok1 : Except String String)
    (firstResult : Except String HTTPResponse) (refreshOutcome : Except String Token)
    (tok2 : Except String String) (retryResult : Except String HTTPResponse) :
    RoundTripResult :=
  match tok1 with
  | Except.error e =>
    { result := Except.error ("failed to get access token: " ++ e), baseCalls := 0,
      refreshCalls := 0 }
  | Except.ok _ =>
    match firstResult with
    | Except.error e => { result := Except.error e, baseCalls := 1, refreshCalls := 0 }
    | Except.ok resp =>
      if resp.status = 401 then
        match refreshOutcome with
        | Except.ok _ =>
          match tok2 with
          | Except.ok _ => { result := retryResult, baseCalls := 2, refreshCalls := 1 }
          | Except.error _ => { result := Except.ok resp, baseCalls := 1, refreshCalls := 1 }
        | Except.error _ => { result := Except.ok resp, baseCalls := 1, refreshCalls := 1 }
      else { result := Except.ok resp, baseCalls := 1, refreshCalls := 0 }

/-- C2: a 401 answer to the original request triggers exactly one refresh
attempt and at most one retry (the base transport never runs more than
twice); when the refresh fails the caller sees the original 401 response;
when the refresh succeeds and the new token is obtained, the caller sees
the result of the retried request — whatever it is — and never the original
401. -/
theorem roundTrip_single_retry (tok1 : Except String String)
    (firstResult : Except String HTTPResponse) (refreshOutcome : Except String Token)
    (tok2 : Except String String) (retryResult : Except String HTTPResponse) :
    ((AuthenticatedTransport.roundTrip tok1 firstResult refreshOutcome tok2 retryResult).refreshCalls ≤ 1 ∧
     (AuthenticatedTransport.roundTrip tok1 firstResult refreshOutcome tok2 retryResult).baseCalls ≤ 2) ∧
    (∀ resp, firstResult = Except.ok resp → resp.status = 401 → (∃ s, tok1 = Except.ok s) →
      (AuthenticatedTransport.roundTrip tok1 firstResult refreshOutcome tok2 retryResult).refreshCalls = 1) ∧
    (∀ resp e, firstResult = Except.ok resp → resp.status = 401 → (∃ s, tok1 = Except.ok s) →
      refreshOutcome = Except.error e →
      (AuthenticatedTransport.roundTrip tok1 firstResult refreshOutcome tok2 retryResult).result =
        Except.ok resp ∧
      (AuthenticatedTransport.roundTrip tok1 firstResult refreshOutcome tok2 retryResult).baseCalls = 1) ∧
    (∀ resp newTok s2, firstResult = Except.ok resp → resp.status = 401 →
      (∃ s, tok1 = Except.ok s) →
      refreshOutcome = Except.ok newTok → tok2 = Except.ok s2 →
      (AuthenticatedTransport.roundTrip tok1 firstResult refreshOutcome tok2 retryResult).result =
        retryResult ∧
      (AuthenticatedTransport.roundTrip tok1 firstResult refreshOutcome tok2 retryResult).baseCalls = 2) := by
  have hbound : (AuthenticatedTransport.roundTrip tok1 firstResult refreshOutcome tok2 retryResult).refreshCalls ≤ 1 ∧
      (AuthenticatedTransport.roundTrip tok1 firstResult refreshOutcome tok2 retryResult).baseCalls ≤ 2 := by
    unfold AuthenticatedTransport.roundTrip
    cases tok1 with
    | error e => simp
    | ok s =>
      cases firstResult with
      | error e => simp
      | ok resp =>
        by_cases h401 : resp.status = 401
        · cases refreshOutcome with
          | error e => simp [h401]
          | ok newTok =>
            cases tok2 with
            | error e => simp [h401]
            | ok s2 => simp [h401]
        · simp [h401]
  refine ⟨hbound, ?_, ?_, ?_⟩
  · intro resp hfirst h401 htok
    obtain ⟨s, hs⟩ := htok
    subst hs
    subst hfirst
    cases refreshOutcome with
    | error e => simp [AuthenticatedTransport.roundTrip, h401]
    | ok newTok =>
      cases tok2 with
      | error e => simp [AuthenticatedTransport.roundTrip, h401]
      | ok s2 => simp [AuthenticatedTransport.roundTrip, h401]
  · intro resp e hfirst h401 htok hrefresh
    obtain ⟨s, hs⟩ := htok
    subst hs
    subst hfirst
    subst hrefresh
    exact ⟨by simp [AuthenticatedTransport.roundTrip, h401],
      by simp [AuthenticatedTransport.roundTrip, h401]⟩
  · intro resp newTok s2 hfirst h401 htok hrefresh htok2
    obtain ⟨s, hs⟩ := htok
    subst hs
    subst hfirst
    subst hrefresh
    subst htok2
    exact ⟨by simp [AuthenticatedTransport.roundTrip, h401],
      by simp [AuthenticatedTransport.roundTrip, h401]⟩

/-- Witness for `roundTrip_single_retry`: a 401 whose refresh succeeds and
whose retried request fails with a transport error surfaces the retried
error of the retried request after exactly two base-transport calls. -/
theorem roundTrip_single_retry_witness :
    (AuthenticatedTransport.roundTrip (Except.ok "a") (Except.ok ⟨401⟩)
        (Except.ok freshToken) (Except.ok "b") (Except.error ("boom"))).result =
      Except.error ("boom") ∧
    (AuthenticatedTransport.roundTrip (Except.ok "a") (Except.ok ⟨401⟩)
        (Except.ok freshToken) (Except.ok "b") (Except.error ("boom"))).baseCalls = 2 :=
  (roundTrip_single_retry (Except.ok "a") (Except.ok ⟨401⟩)
      (Except.ok freshToken) (Except.ok "b") (Except.error ("boom"))).2.2.2 ⟨401⟩
    freshToken "b" rfl rfl ⟨"a", rfl⟩ rfl rfl

end Ynab
